import Mathlib

/-!
Verification of the SimGAN training script (`sim-gan.py`).

The script trains a refiner network adversarially against a discriminator,
using a bounded, shuffled history buffer of previously refined images.
We shallow-embed the orchestration logic: images are abstract elements
(type parameter `α`, instantiated with `Nat` for concrete checks), an image
batch is a `List α`, and the numpy history buffer is a `List α` of single
images (the numpy array's leading axis).  `np.random.shuffle` is modelled by
an explicit shuffle function parameter; claims about "every choice of the
shuffle" quantify over such functions, constrained to be permutations.
Python exceptions surface as `Except NpError`.
-/

namespace SimGAN

/-- `batch_size = 32` (sim-gan.py:32). -/
def batch_size : Nat := 32

/-- `batch_size // 2`, the half-batch size used by the history buffer. -/
def half_batch : Nat := batch_size / 2

/-- `history_buffer_max_size = batch_size * 1000` (sim-gan.py:40). -/
def history_buffer_max_size : Nat := batch_size * 1000

/-- `k_d = 1`, number of discriminator updates per step (sim-gan.py:33). -/
def k_d : Nat := 1

/-- `k_g = 2`, number of generative network updates per step (sim-gan.py:34). -/
def k_g : Nat := 2

/-- The Python exceptions relevant to this script: numpy's broadcast
failure (`ValueError`), indexing failure (`IndexError`), and a failed
`assert` (`AssertionError`). -/
inductive NpError where
  | valueError
  | indexError
  | assertionError
  deriving DecidableEq

/-- `add_half_batch_to_image_history` (sim-gan.py:43-54), generalized over the
half-batch size `hbs` and capacity `cap` (the script fixes them to
`batch_size // 2` and `history_buffer_max_size`).  The function asserts the
input has exactly half-batch length, appends while under capacity, overwrites
the first half-batch slice once at capacity (`buffer[:hbs] = hb` on a
length-`cap` buffer leaves `hb ++ buffer.drop hbs`), hits `assert False` if
the size ever exceeded capacity, and finally shuffles the whole buffer
(`np.random.shuffle`, modelled by the `shuffle` parameter). -/
def addHalfBatchGen (hbs cap : Nat) (shuffle : List α → List α)
    (buf hb : List α) : Except NpError (List α) :=
  if hb.length ≠ hbs then .error .assertionError
  else if buf.length < cap then .ok (shuffle (buf ++ hb))
  else if buf.length = cap then .ok (shuffle (hb ++ buf.drop hbs))
  else .error .assertionError

/-- `add_half_batch_to_image_history` at the script's constants. -/
def add_half_batch_to_image_history (shuffle : List α → List α)
    (buf hb : List α) : Except NpError (List α) :=
  addHalfBatchGen half_batch history_buffer_max_size shuffle buf hb

/-- `get_half_batch_from_image_history` (sim-gan.py:57-63): returns
`refined_image_history_buffer[:batch_size // 2]`.  NumPy basic slicing is
total (an out-of-range slice is clipped, never raising `IndexError`), so the
`except IndexError` fallback at lines 62-63 is dead code and the read is the
slice itself: the first `half_batch` elements, or everything if fewer. -/
def get_half_batch_from_image_history (buf : List α) : List α :=
  buf.take half_batch

/-- NumPy slice assignment `dst[:n] = src` on the leading axis.  The target
slice has length `min n (len dst)`; the assignment succeeds when `src` has
exactly that length, or broadcasts when `src` has leading length 1; any other
length raises `ValueError` ("could not broadcast input array").  Basic slice
assignment never raises `IndexError`. -/
def npSliceAssign (dst : List α) (n : Nat) (src : List α) :
    Except NpError (List α) :=
  let k := min n dst.length
  if src.length = k then .ok (src ++ dst.drop k)
  else
    match src with
    | [x] => .ok (List.replicate k x ++ dst.drop k)
    | _ => .error .valueError

/-- Iterated insertion into the history buffer starting from the empty
buffer (`np.zeros(shape=(0, ...))`, sim-gan.py:39): `shuffles n` is the
shuffle performed by the `n`-th insert and `halves n` the half-batch it
inserts. -/
def insertSeqGen (hbs cap : Nat) (shuffles : Nat → List α → List α)
    (halves : Nat → List α) : Nat → Except NpError (List α)
  | 0 => .ok []
  | n + 1 =>
    (insertSeqGen hbs cap shuffles halves n).bind fun buf =>
      addHalfBatchGen hbs cap (shuffles n) buf (halves n)

/-- `insertSeqGen` at the script's constants. -/
def insertSeq (shuffles : Nat → List α → List α) (halves : Nat → List α)
    (n : Nat) : Except NpError (List α) :=
  insertSeqGen half_batch history_buffer_max_size shuffles halves n

/-- `get_image_batch` (sim-gan.py:180-186).  The keras generator is modelled
as a stream `gen : Nat → List α` of successive batches together with a read
position; `generator.next()` reads the batch at the position and advances it.
If the first batch does not have exactly `batch_size` elements it is
discarded and the generator queried once more; whatever the second query
returns is the result — there is no length check after the retry and no
error path. -/
def get_image_batch (gen : Nat → List α) (pos : Nat) : List α × Nat :=
  let b := gen pos
  if b.length ≠ batch_size then (gen (pos + 1), pos + 2) else (b, pos + 1)

/-! ### The adversarial co-training step as an event trace

One step of the loop at sim-gan.py:211-242: first `k_g * 2` iterations of
`combined_model.train_on_batch` (line 215-220), then `k_d` iterations each
doing the history-buffer read / insert / splice and two
`discriminator_model.train_on_batch` calls (lines 222-242).  We record the
optimizer updates the step issues as a list of events; an uncaught Python
exception truncates the trace and is reported alongside it. -/

/-- One optimizer update issued by the training loop. -/
inductive TrainEvent where
  | combinedUpdate
  | discUpdateReal
  | discUpdateRefined
  deriving DecidableEq

/-- The four independent layer sets created while the models are wired up
(sim-gan.py:126-141).  Each call to `refiner_network` or
`discriminator_network` builds fresh Keras layers with fresh weights:
line 127 builds the refiner copy A wrapped by `refiner_model`, line 130 the
discriminator copy A wrapped by `discriminator_model`, and line 132 —
`discriminator_network(refiner_network(synthetic_image_tensor))` — builds a
second refiner copy B and a second discriminator copy B, the ones that feed
`combined_output`. -/
inductive ParamSet where
  | refinerCopyA
  | discCopyA
  | refinerCopyB
  | discCopyB
  deriving DecidableEq, BEq

/-- Whether a layer set holds discriminator-network parameters. -/
def isDiscriminatorParams : ParamSet → Bool
  | .discCopyA => true
  | .discCopyB => true
  | .refinerCopyA => false
  | .refinerCopyB => false

/-- The layer sets contained in `combined_model` (sim-gan.py:140-141): its
outputs are `refined_image_tensor`, computed through refiner copy A, and
`combined_output`, computed through refiner copy B and discriminator copy B.
Discriminator copy A is not part of this graph. -/
def combinedModelParams : List ParamSet :=
  [.refinerCopyA, .refinerCopyB, .discCopyB]

/-- The layer sets contained in `discriminator_model` (sim-gan.py:138-139). -/
def discriminatorModelParams : List ParamSet :=
  [.discCopyA]

/-- The layer sets frozen by `discriminator_model.trainable = False`
(sim-gan.py:155): exactly the layers of `discriminator_model`, i.e.
discriminator copy A. -/
def frozenParams : List ParamSet :=
  [.discCopyA]

/-- Whether one `combined_model.train_on_batch` call (sim-gan.py:220)
updates a layer set: an optimizer step on a model updates every layer set of
that model's graph that is not frozen. -/
def combinedUpdateTrains (p : ParamSet) : Bool :=
  combinedModelParams.contains p && !(frozenParams.contains p)

/-- The refiner-update phase (sim-gan.py:215-220): the loop header is
`for _ in range(k_g * 2)` and each iteration is one
`combined_model.train_on_batch`. -/
def refinerPhaseTrace (kg : Nat) : List TrainEvent :=
  List.replicate (kg * 2) .combinedUpdate

/-- One iteration of the discriminator-update loop body
(sim-gan.py:224-242), given the current history buffer, the freshly refined
batch and the shuffle of this iteration's insert.  In source order: read a
half batch from the history (line 231), insert the first half of the fresh
batch (line 232), splice the history half batch over the first half of the
fresh batch guarded by `except IndexError: pass` (lines 234-238) — any other
exception, in particular numpy's `ValueError` on a failed broadcast,
propagates — then two discriminator updates (lines 241-242).  Returns the
updated buffer and the update events of the iteration. -/
def discIterationEvents (shuffle : List α → List α) (buf refined : List α) :
    Except NpError (List α × List TrainEvent) :=
  let half := get_half_batch_from_image_history buf
  match add_half_batch_to_image_history shuffle buf (refined.take half_batch) with
  | .error e => .error e
  | .ok buf1 =>
    match npSliceAssign refined half_batch (half.take half_batch) with
    | .error .indexError => .ok (buf1, [.discUpdateReal, .discUpdateRefined])
    | .error e => .error e
    | .ok _ => .ok (buf1, [.discUpdateReal, .discUpdateRefined])

/-- The discriminator-update phase: `kd` iterations of
`discIterationEvents`, threading the history buffer; `shuffles i` and
`refinedSeq i` are the shuffle and the freshly refined batch of iteration
`i`.  An uncaught exception stops the phase: the events of the failed
iteration are not issued and the error is reported. -/
def discPhaseTrace (shuffles : Nat → List α → List α)
    (refinedSeq : Nat → List α) :
    Nat → List α → Nat → List TrainEvent × Option NpError
  | _, _, 0 => ([], none)
  | i, buf, kd + 1 =>
    match discIterationEvents (shuffles i) buf (refinedSeq i) with
    | .error e => ([], some e)
    | .ok (buf1, evs) =>
      let rest := discPhaseTrace shuffles refinedSeq (i + 1) buf1 kd
      (evs ++ rest.1, rest.2)

/-- The full event trace of one adversarial co-training step
(sim-gan.py:211-242) with parameters `kg`, `kd`, starting from history
buffer `buf`. -/
def adversarialStepTrace (kg kd : Nat) (shuffles : Nat → List α → List α)
    (refinedSeq : Nat → List α) (buf : List α) :
    List TrainEvent × Option NpError :=
  let d := discPhaseTrace shuffles refinedSeq 0 buf kd
  (refinerPhaseTrace kg ++ d.1, d.2)

/-! ### Shape semantics of the refiner network -/

/-- The shape of a rank-4 image tensor `(batch, height, width, channels)`. -/
structure TensorShape where
  batchN : Nat
  height : Nat
  width : Nat
  channels : Nat
  deriving DecidableEq

/-- Shape of `layers.Convolution2D(f, _, _, border_mode='same')` at stride 1:
same padding and unit stride preserve the spatial extent, the channel axis
becomes the number `f` of filters. -/
def conv2dSame (f : Nat) (s : TensorShape) : TensorShape :=
  { s with channels := f }

/-- Shape of `layers.merge([a, b], mode='sum')`: elementwise sum requires
equal shapes and preserves them; a mismatch is a model-construction error. -/
def mergeSum (a b : TensorShape) : Option TensorShape :=
  if a = b then some a else none

/-- Shape of `resnet_block` (sim-gan.py:74-89): two 3x3 same-padding
convolutions with 64 feature maps, then a sum merge with the block input
(activations do not change shapes). -/
def resnetBlockShape (s : TensorShape) : Option TensorShape :=
  mergeSum s (conv2dSame 64 (conv2dSame 64 s))

/-- Shape of `refiner_network` (sim-gan.py:66-100): a 3x3 convolution to 64
feature maps, four ResNet blocks, and a final 1x1 convolution hardcoded to
`1` feature map (line 100). -/
def refinerNetworkShape (s : TensorShape) : Option TensorShape :=
  (((((resnetBlockShape (conv2dSame 64 s)).bind
      resnetBlockShape).bind
      resnetBlockShape).bind
      resnetBlockShape).map
      (conv2dSame 1))

/-! ### The self-regularization loss -/

/-- `delta = 0.001` (sim-gan.py:147). -/
def self_regularization_delta : ℚ := 1 / 1000

/-- `self_regularization_loss` (sim-gan.py:146-148):
`delta * reduce_sum (abs (y_pred - y_true))`.  Equal-shaped tensors are
flattened to equal-length lists of exact rationals. -/
def self_regularization_loss (yTrue yPred : List ℚ) : ℚ :=
  self_regularization_delta *
    (List.zipWith (fun p t => |p - t|) yPred yTrue).sum

/-- Shuffle choices for the capacity-4 retention scenario: the fourth insert
reverses the buffer, every other insert leaves it in place (both are
permutations, hence reachable outcomes of `np.random.shuffle`). -/
def cexShuffles : Nat → List Nat → List Nat :=
  fun n l => if n = 3 then l.reverse else l

/-- Five pairwise-distinct half-batches for the capacity-4 retention
scenario: the `n`-th half-batch holds the images `16n .. 16n+15`. -/
def cexHalves : Nat → List Nat :=
  fun n => List.range' (16 * n) 16

/-! ## Theorems -/

/-- One insert while strictly under capacity succeeds and produces a
permutation of the old buffer followed by the new half-batch. -/
theorem addHalfBatchGen_under_cap {α : Type} (hbs cap : Nat)
    (shuffle : List α → List α) (hσ : ∀ l, (shuffle l).Perm l)
    (buf hb : List α) (hlen : hb.length = hbs) (hlt : buf.length < cap) :
    ∃ b, addHalfBatchGen hbs cap shuffle buf hb = .ok b ∧
      b.Perm (buf ++ hb) := by
  refine ⟨_, ?_, hσ _⟩
  rw [addHalfBatchGen, if_neg (fun hc => hc hlen), if_pos hlt]

/-- One insert exactly at capacity succeeds and produces a permutation of
the new half-batch followed by the tail of the old buffer. -/
theorem addHalfBatchGen_at_cap {α : Type} (hbs cap : Nat)
    (shuffle : List α → List α) (hσ : ∀ l, (shuffle l).Perm l)
    (buf hb : List α) (hlen : hb.length = hbs) (heq : buf.length = cap) :
    ∃ b, addHalfBatchGen hbs cap shuffle buf hb = .ok b ∧
      b.Perm (hb ++ buf.drop hbs) := by
  refine ⟨_, ?_, hσ _⟩
  rw [addHalfBatchGen, if_neg (fun hc => hc hlen), if_neg (by omega),
    if_pos heq]

/-- Claim C1: starting from the empty buffer, after `N` inserts of
half-batches of exactly `batch_size / 2` images — whatever the shuffles, as
long as each is a length-preserving rearrangement — every insert succeeds
and the buffer size equals `min (N * (batch_size / 2))
history_buffer_max_size`: it grows by a half-batch per insert until it
reaches the capacity and stays exactly at the capacity thereafter. -/
theorem history_buffer_size_law {α : Type}
    (shuffles : Nat → List α → List α)
    (hσ : ∀ n l, (shuffles n l).length = l.length)
    (halves : Nat → List α)
    (hh : ∀ n, (halves n).length = half_batch) (N : Nat) :
    ∃ buf, insertSeq shuffles halves N = .ok buf ∧
      buf.length = min (N * half_batch) history_buffer_max_size := by
  have ehb : half_batch = 16 := rfl
  have emax : history_buffer_max_size = 32000 := rfl
  induction N with
  | zero => exact ⟨[], rfl, by simp⟩
  | succ n ih =>
    obtain ⟨buf, hbuf, hlen⟩ := ih
    have hstep : insertSeq shuffles halves (n + 1) =
        addHalfBatchGen half_batch history_buffer_max_size (shuffles n) buf
          (halves n) := by
      have : insertSeq shuffles halves (n + 1) =
          (insertSeq shuffles halves n).bind fun b =>
            addHalfBatchGen half_batch history_buffer_max_size (shuffles n) b
              (halves n) := rfl
      rw [this, hbuf]; rfl
    rw [hstep, addHalfBatchGen, if_neg (fun hc => hc (hh n))]
    by_cases hlt : buf.length < history_buffer_max_size
    · rw [if_pos hlt]
      refine ⟨_, rfl, ?_⟩
      rw [hσ, List.length_append, hh n]
      simp only [ehb, emax] at hlen hlt ⊢
      omega
    · by_cases hcap : buf.length = history_buffer_max_size
      · rw [if_neg hlt, if_pos hcap]
        refine ⟨_, rfl, ?_⟩
        rw [hσ, List.length_append, List.length_drop, hh n]
        simp only [ehb, emax] at hlen hcap ⊢
        omega
      · exfalso
        simp only [ehb, emax] at hlen hlt hcap
        omega

/-- Witness for C1: two identity-shuffled inserts of 16 zero images leave a
buffer of 32 = min (2 * 16) 32000 images. -/
theorem history_buffer_size_law_witness :
    ∃ buf, insertSeq (fun _ l => l) (fun _ => List.replicate 16 (0 : Nat))
        2 = .ok buf ∧
      buf.length = min (2 * half_batch) history_buffer_max_size :=
  history_buffer_size_law (fun _ l => l) (fun _ _ => rfl)
    (fun _ => List.replicate 16 0)
    (fun _ => show (List.replicate 16 (0 : Nat)).length = half_batch by decide) 2

/-- Claim C7: inserting a half-batch `h` of exactly `batch_size / 2` images
into the empty buffer succeeds, and an immediately following read returns a
permutation of `h` — the same multiset of images — for every choice of the
shuffle. -/
theorem insert_then_read_perm {α : Type} (shuffle : List α → List α)
    (hσ : ∀ l, (shuffle l).Perm l) (h : List α)
    (hlen : h.length = half_batch) :
    ∃ buf, add_half_batch_to_image_history shuffle [] h = .ok buf ∧
      (get_half_batch_from_image_history buf).Perm h := by
  refine ⟨shuffle ([] ++ h), ?_, ?_⟩
  · have hlt0 : ([] : List α).length < history_buffer_max_size := by
      rw [List.length_nil]; decide
    rw [add_half_batch_to_image_history, addHalfBatchGen,
      if_neg (fun hc => hc hlen), if_pos hlt0]
  · have hp : (shuffle ([] ++ h)).Perm h := by simpa using hσ ([] ++ h)
    have hl : (shuffle ([] ++ h)).length = half_batch := by
      rw [hp.length_eq, hlen]
    rw [get_half_batch_from_image_history,
      List.take_of_length_le (le_of_eq hl)]
    exact hp

/-- Witness for C7: the identity shuffle on the half-batch `[0, …, 15]`. -/
theorem insert_then_read_perm_witness :
    ∃ buf, add_half_batch_to_image_history (fun l => l) []
        (List.range 16) = .ok buf ∧
      (get_half_batch_from_image_history buf).Perm (List.range 16) :=
  insert_then_read_perm (fun l => l) (fun l => List.Perm.refl l)
    (List.range 16) rfl

/-- Claim C9: the history-buffer read is total in every buffer state — it
returns the first `batch_size / 2` elements (clipped to the buffer length),
in particular the empty batch on the empty buffer; since numpy basic slicing
never raises `IndexError`, the `except IndexError` fallback in the source is
unreachable and the read never errors. -/
theorem read_total_first_slice {α : Type} (buf : List α) :
    (get_half_batch_from_image_history buf).length =
      min half_batch buf.length ∧
    (buf = [] → get_half_batch_from_image_history buf = []) ∧
    (∀ i, i < half_batch →
      (get_half_batch_from_image_history buf).get? i = buf.get? i) := by
  refine ⟨?_, fun hb => ?_, fun i hi => ?_⟩
  · rw [get_half_batch_from_image_history, List.length_take]
  · rw [hb]; rfl
  · rw [get_half_batch_from_image_history]
    exact List.get?_take hi

/-- Witness for C9: on a 20-image buffer the read agrees with the buffer at
index 3. -/
theorem read_total_first_slice_witness :
    (get_half_batch_from_image_history (List.range 20)).get? 3 =
      (List.range 20).get? 3 :=
  (read_total_first_slice (List.range 20)).2.2 3 (by decide)

/-- The summed elementwise absolute difference is non-negative. -/
theorem absDiffSum_nonneg (a b : List ℚ) :
    0 ≤ (List.zipWith (fun p t => |p - t|) a b).sum := by
  induction a generalizing b with
  | nil => simp
  | cons x xs ih =>
    cases b with
    | nil => simp
    | cons y ys =>
      simpa using add_nonneg (abs_nonneg (x - y)) (ih ys)

/-- The summed elementwise absolute difference of equal-length lists
vanishes exactly on equal lists. -/
theorem absDiffSum_eq_zero_iff (a b : List ℚ) (h : a.length = b.length) :
    (List.zipWith (fun p t => |p - t|) a b).sum = 0 ↔ a = b := by
  induction a generalizing b with
  | nil =>
    cases b with
    | nil => simp
    | cons y ys => simp at h
  | cons x xs ih =>
    cases b with
    | nil => simp at h
    | cons y ys =>
      have hlen : xs.length = ys.length := by simpa using h
      rw [List.zipWith_cons_cons, List.sum_cons]
      constructor
      · intro h0
        have hsplit := (add_eq_zero_iff_of_nonneg (abs_nonneg (x - y))
          (absDiffSum_nonneg xs ys)).mp h0
        have hxy : x = y := by
          have := abs_eq_zero.mp hsplit.1
          linarith [this]
        have hxs : xs = ys := (ih ys hlen).mp hsplit.2
        rw [hxy, hxs]
      · intro heq
        injection heq with h1 h2
        subst h1
        subst h2
        rw [sub_self, abs_zero, zero_add]
        exact (ih xs rfl).mpr rfl

/-- Claim C10: for equal-shaped tensors, the self-regularization loss is
`delta` times the summed elementwise absolute difference with
`delta = 0.001`; it is non-negative, and it is zero exactly when the two
tensors are elementwise equal. -/
theorem self_regularization_loss_spec (yTrue yPred : List ℚ)
    (h : yTrue.length = yPred.length) :
    self_regularization_loss yTrue yPred =
      (1 / 1000) * (List.zipWith (fun p t => |p - t|) yPred yTrue).sum ∧
    0 ≤ self_regularization_loss yTrue yPred ∧
    (self_regularization_loss yTrue yPred = 0 ↔ yTrue = yPred) := by
  refine ⟨rfl, ?_, ?_⟩
  · exact mul_nonneg (by norm_num [self_regularization_delta])
      (absDiffSum_nonneg yPred yTrue)
  · rw [self_regularization_loss, mul_eq_zero]
    have hδ : self_regularization_delta ≠ 0 := by
      norm_num [self_regularization_delta]
    rw [or_iff_right hδ]
    rw [absDiffSum_eq_zero_iff yPred yTrue h.symm]
    exact eq_comm

/-- Witness for C10: the loss of the pair `([1, 2], [1, 2])` vanishes. -/
theorem self_regularization_loss_spec_witness :
    self_regularization_loss [(1 : ℚ), 2] [1, 2] = 0 :=
  (self_regularization_loss_spec [1, 2] [1, 2] rfl).2.2.mpr rfl

/-- Claim C8 counterexample: on a 3-channel input of shape (1, 2, 2, 3) the
refiner produces shape (1, 2, 2, 1) — the final convolution is hardcoded to
one feature map, so the output shape differs from the input shape. -/
theorem refiner_shape_cex :
    refinerNetworkShape ⟨1, 2, 2, 3⟩ = some ⟨1, 2, 2, 1⟩ ∧
    some (⟨1, 2, 2, 1⟩ : TensorShape) ≠ some (⟨1, 2, 2, 3⟩ : TensorShape) :=
  ⟨rfl, by decide⟩

/-- Claim C8 (amended): for every input shape (B, H, W, C) the refiner's
output shape is (B, H, W, 1) — batch and spatial dimensions are preserved
end-to-end, but the final 1x1 convolution collapses to the hardcoded single
feature map (`img_channels = 1`), not to the input channel depth; the output
shape equals the input shape exactly when C = 1. -/
theorem refiner_shape_amended (s : TensorShape) :
    refinerNetworkShape s = some { s with channels := 1 } ∧
    (refinerNetworkShape s = some s ↔ s.channels = 1) := by
  obtain ⟨b, h, w, c⟩ := s
  refine ⟨?_, ?_⟩ <;>
    simp [refinerNetworkShape, resnetBlockShape, conv2dSame, mergeSum,
      TensorShape.mk.injEq, eq_comm]

/-- Claim C5 counterexample: when the generator keeps yielding empty
batches, `get_image_batch` silently returns a batch of length 0, not a full
batch and not an error — no `ExhaustedSourceError` exists in the code. -/
theorem get_image_batch_short_cex :
    ((get_image_batch (fun _ => ([] : List Nat)) 0).1).length = 0 ∧
    (0 : Nat) ≠ batch_size :=
  ⟨rfl, by decide⟩

/-- Claim C5 (amended): `get_image_batch` returns the generator's batch
unchanged when it has exactly `batch_size` elements; otherwise it discards
it and returns the result of exactly one further query unconditionally —
even when that retry batch is short no error is raised. -/
theorem get_image_batch_retry_once {α : Type} (gen : Nat → List α)
    (pos : Nat) :
    ((gen pos).length = batch_size →
      get_image_batch gen pos = (gen pos, pos + 1)) ∧
    ((gen pos).length ≠ batch_size →
      get_image_batch gen pos = (gen (pos + 1), pos + 2)) := by
  constructor
  · intro h
    rw [get_image_batch]
    simp [h]
  · intro h
    rw [get_image_batch]
    simp [h]

/-- Witness for C5 (amended): a generator of full 32-image batches has its
first batch returned unchanged. -/
theorem get_image_batch_retry_once_witness :
    get_image_batch (fun _ => List.range 32) 0 = (List.range 32, 1) :=
  (get_image_batch_retry_once (fun _ => List.range 32) 0).1 (by decide)

/-- A successful discriminator iteration issues exactly the two
discriminator updates, one on the real batch and one on the refined
batch. -/
theorem discIterationEvents_ok_events {α : Type} (shuffle : List α → List α)
    (buf refined b : List α) (evs : List TrainEvent)
    (h : discIterationEvents shuffle buf refined = .ok (b, evs)) :
    evs = [TrainEvent.discUpdateReal, TrainEvent.discUpdateRefined] := by
  rw [discIterationEvents] at h
  split at h
  · exact absurd h (by simp)
  · split at h <;> simp_all

/-- The discriminator-update phase never issues a combined (refiner)
update. -/
theorem discPhaseTrace_count_combined {α : Type}
    (shuffles : Nat → List α → List α) (refinedSeq : Nat → List α) :
    ∀ (kd i : Nat) (buf : List α),
      (discPhaseTrace shuffles refinedSeq i buf kd).1.count
        TrainEvent.combinedUpdate = 0 := by
  intro kd
  induction kd with
  | zero => intro i buf; rfl
  | succ k ih =>
    intro i buf
    rw [discPhaseTrace]
    cases hd : discIterationEvents (shuffles i) buf (refinedSeq i) with
    | error e => simp
    | ok p =>
      obtain ⟨b, evs⟩ := p
      have hevs := discIterationEvents_ok_events (shuffles i) buf
        (refinedSeq i) b evs hd
      simp [hevs, List.count_append, ih]

/-- Claim C2: fails on the code on both conjuncts, evaluated at the
refiner-update phase of an adversarial step.  The phase issues
`k_g * 2 = 4` combined updates, not `k_g = 2` (contradicting the script's
own line-34 comment calling `k_g` the number of generative updates per
step); and a combined update does train discriminator parameters: the
combined model contains the fresh, never-frozen discriminator copy B built
by the second `discriminator_network` call at line 132, and
`discriminator_model.trainable = False` (line 155) freezes only
discriminator copy A, which is not in the combined graph at all — copy A
stays fixed during the phase only because it is absent from the graph, not
because of the freeze. -/
theorem refiner_phase_code_bug_eval :
    (refinerPhaseTrace k_g).count TrainEvent.combinedUpdate = 4 ∧
    (4 : Nat) ≠ k_g ∧
    isDiscriminatorParams ParamSet.discCopyB = true ∧
    combinedUpdateTrains ParamSet.discCopyB = true ∧
    combinedUpdateTrains ParamSet.refinerCopyA = true ∧
    combinedUpdateTrains ParamSet.discCopyA = false :=
  ⟨rfl, by decide, rfl, by decide, by decide, by decide⟩

/-- Claim C3: the trace of the single adversarial step of a fresh run with
`k_g = 2`, `k_d = 1` — the history buffer still empty — issues the 4
combined refiner updates and then aborts the discriminator iteration with
an uncaught numpy `ValueError` (the empty history half-batch cannot be
broadcast over the first half of the refined batch and `except IndexError`
does not catch it), so 0 discriminator updates are issued instead of the
claimed 2. -/
theorem fresh_step_trace_eval :
    adversarialStepTrace k_g k_d (fun _ l => l) (fun _ => List.range 32)
        ([] : List Nat) =
      (List.replicate 4 TrainEvent.combinedUpdate,
        some NpError.valueError) ∧
    (List.replicate 4 TrainEvent.combinedUpdate).count
        TrainEvent.discUpdateReal = 0 ∧
    (List.replicate 4 TrainEvent.combinedUpdate).count
        TrainEvent.discUpdateRefined = 0 :=
  ⟨rfl, by decide, by decide⟩

/-- Claim C4: a discriminator iteration that reads the empty history buffer
does not tolerate the empty read — the splice `refined[:16] = <empty>`
raises numpy `ValueError` (a failed broadcast, not an `IndexError`), the
`except IndexError: pass` does not catch it, and the error propagates out
of the iteration before either discriminator update runs. -/
theorem empty_history_splice_eval :
    discIterationEvents (fun l => l) ([] : List Nat) (List.range 32) =
      .error NpError.valueError :=
  rfl

/-- Claim C6 counterexample: capacity 4 half-batches (64 images), five
pairwise-distinct half-batches `cexHalves 0 .. 4` inserted sequentially,
with the (legitimate, uniformly reachable) shuffle outcome that the fourth
insert reverses the buffer.  The final buffer has the right size 64 but
still retains image 0 of the first half-batch — which is in none of the 4
most recent half-batches — and has evicted image 48 of the fourth
half-batch, so the retained set is not the union of the 4 most recently
inserted half-batches. -/
theorem capacity4_retention_cex :
    insertSeqGen 16 64 cexShuffles cexHalves 5 =
      .ok (List.range' 64 16 ++ (List.range' 0 48).reverse) ∧
    (List.range' 64 16 ++ (List.range' 0 48).reverse).length = 64 ∧
    (0 : Nat) ∈ List.range' 64 16 ++ (List.range' 0 48).reverse ∧
    (0 : Nat) ∉ cexHalves 1 ++ cexHalves 2 ++ cexHalves 3 ++ cexHalves 4 ∧
    (48 : Nat) ∈ cexHalves 3 ∧
    (48 : Nat) ∉ List.range' 64 16 ++ (List.range' 0 48).reverse :=
  ⟨rfl, by decide, by decide, by decide, by decide, by decide⟩

/-- Claim C6 (amended): with capacity 4 half-batches, after sequentially
inserting 5 half-batches of 16 images each — for every choice of the
shuffles — the buffer size equals 64 (4 half-batches), the buffer contains
every image of the 5th (most recent) half-batch, and every retained image
comes from one of the 5 inserted half-batches; which 48 of the earlier
images survive depends on the shuffles, so the retained set need not be the
union of the 4 most recent half-batches. -/
theorem capacity4_retention_amended {α : Type}
    (shuffles : Nat → List α → List α)
    (hσ : ∀ n l, (shuffles n l).Perm l)
    (halves : Nat → List α) (hh : ∀ n, (halves n).length = 16) :
    ∃ b, insertSeqGen 16 64 shuffles halves 5 = .ok b ∧ b.length = 64 ∧
      (∀ x ∈ halves 4, x ∈ b) ∧
      (∀ x ∈ b, x ∈ halves 0 ∨ x ∈ halves 1 ∨ x ∈ halves 2 ∨
        x ∈ halves 3 ∨ x ∈ halves 4) := by
  obtain ⟨b1, e1, p1⟩ := addHalfBatchGen_under_cap 16 64 (shuffles 0) (hσ 0)
    [] (halves 0) (hh 0) (by rw [List.length_nil]; omega)
  have p1a : b1.Perm (halves 0) := by simpa using p1
  have l1 : b1.length = 16 := by rw [p1a.length_eq, hh 0]
  obtain ⟨b2, e2, p2⟩ := addHalfBatchGen_under_cap 16 64 (shuffles 1) (hσ 1)
    b1 (halves 1) (hh 1) (by omega)
  have p2a : b2.Perm (halves 0 ++ halves 1) :=
    p2.trans (p1a.append_right (halves 1))
  have l2 : b2.length = 32 := by
    rw [p2.length_eq, List.length_append, l1, hh 1]
  obtain ⟨b3, e3, p3⟩ := addHalfBatchGen_under_cap 16 64 (shuffles 2) (hσ 2)
    b2 (halves 2) (hh 2) (by omega)
  have p3a : b3.Perm ((halves 0 ++ halves 1) ++ halves 2) :=
    p3.trans (p2a.append_right (halves 2))
  have l3 : b3.length = 48 := by
    rw [p3.length_eq, List.length_append, l2, hh 2]
  obtain ⟨b4, e4, p4⟩ := addHalfBatchGen_under_cap 16 64 (shuffles 3) (hσ 3)
    b3 (halves 3) (hh 3) (by omega)
  have p4a : b4.Perm (((halves 0 ++ halves 1) ++ halves 2) ++ halves 3) :=
    p4.trans (p3a.append_right (halves 3))
  have l4 : b4.length = 64 := by
    rw [p4.length_eq, List.length_append, l3, hh 3]
  obtain ⟨b5, e5, p5⟩ := addHalfBatchGen_at_cap 16 64 (shuffles 4) (hσ 4)
    b4 (halves 4) (hh 4) l4
  have s1 : insertSeqGen 16 64 shuffles halves 1 = .ok b1 := by
    have h0 : insertSeqGen 16 64 shuffles halves 1 =
        addHalfBatchGen 16 64 (shuffles 0) [] (halves 0) := rfl
    rw [h0, e1]
  have s2 : insertSeqGen 16 64 shuffles halves 2 = .ok b2 := by
    have h0 : insertSeqGen 16 64 shuffles halves 2 =
        (insertSeqGen 16 64 shuffles halves 1).bind fun buf =>
          addHalfBatchGen 16 64 (shuffles 1) buf (halves 1) := rfl
    rw [h0, s1]
    exact e2
  have s3 : insertSeqGen 16 64 shuffles halves 3 = .ok b3 := by
    have h0 : insertSeqGen 16 64 shuffles halves 3 =
        (insertSeqGen 16 64 shuffles halves 2).bind fun buf =>
          addHalfBatchGen 16 64 (shuffles 2) buf (halves 2) := rfl
    rw [h0, s2]
    exact e3
  have s4 : insertSeqGen 16 64 shuffles halves 4 = .ok b4 := by
    have h0 : insertSeqGen 16 64 shuffles halves 4 =
        (insertSeqGen 16 64 shuffles halves 3).bind fun buf =>
          addHalfBatchGen 16 64 (shuffles 3) buf (halves 3) := rfl
    rw [h0, s3]
    exact e4
  have s5 : insertSeqGen 16 64 shuffles halves 5 = .ok b5 := by
    have h0 : insertSeqGen 16 64 shuffles halves 5 =
        (insertSeqGen 16 64 shuffles halves 4).bind fun buf =>
          addHalfBatchGen 16 64 (shuffles 4) buf (halves 4) := rfl
    rw [h0, s4]
    exact e5
  refine ⟨b5, s5, ?_, ?_, ?_⟩
  · rw [p5.length_eq, List.length_append, hh 4, List.length_drop, l4]
  · intro x hx
    exact p5.mem_iff.mpr (List.mem_append_left _ hx)
  · intro x hx
    rcases List.mem_append.mp (p5.mem_iff.mp hx) with h4x | hdx
    · exact Or.inr (Or.inr (Or.inr (Or.inr h4x)))
    · have hb4 : x ∈ b4 := List.drop_subset 16 b4 hdx
      have hx4 := p4a.mem_iff.mp hb4
      simp only [List.mem_append] at hx4
      tauto

/-- Witness for C6 (amended): identity shuffles and the half-batches
`[16n, …, 16n+15]`. -/
theorem capacity4_retention_amended_witness :
    ∃ b, insertSeqGen 16 64 (fun _ l => l)
        (fun n => List.range' (16 * n) 16) 5 = .ok b ∧ b.length = 64 ∧
      (∀ x ∈ (fun n => List.range' (16 * n) 16) 4, x ∈ b) ∧
      (∀ x ∈ b, x ∈ (fun n => List.range' (16 * n) 16) 0 ∨
        x ∈ (fun n => List.range' (16 * n) 16) 1 ∨
        x ∈ (fun n => List.range' (16 * n) 16) 2 ∨
        x ∈ (fun n => List.range' (16 * n) 16) 3 ∨
        x ∈ (fun n => List.range' (16 * n) 16) 4) :=
  capacity4_retention_amended (fun _ l => l) (fun _ l => List.Perm.refl l)
    (fun n => List.range' (16 * n) 16) (fun n => by simp)

end SimGAN
